import Mathlib

/-!
Verification development for the trading-crew session lifecycle core
(`web/src/services/session-manager.ts`, `web/src/services/sse-manager.ts`,
`web/src/routes/sessions.ts`, `web/src/config.ts`).

The TypeScript code is shallowly embedded as follows:

* A `Session` mirrors the `Session` interface of `types.ts`.  `createdAt`
  is stored as the parsed timestamp (a `Nat`, the value of
  `new Date(s.createdAt).getTime()`), since every use of `createdAt` in the
  session manager first parses it to a number.  The untyped
  `(session as any)._analysts` stash used by `startSession` /
  `startNextQueuedSession` is modelled as an explicit
  `selectedStages : Option (List String)` field (`none` = the property was
  never assigned, matching a JS `undefined`).
* The `Map<string, Session>` store is a `List Session` in map-insertion
  order, with unique ids; `Map.set` on an existing key replaces in place,
  on a fresh key appends.  `Record<string, string>` objects (`reports`)
  are association lists in key-insertion order.
* `World` pairs the in-memory store with the persisted JSON snapshot
  (`sessions.json`); `saveSessions` copies the store to the disk
  component.  SSE publishing has no effect on either component and is not
  modelled.
* Each synchronous block of the single-threaded event loop is one atomic
  operation: session creation, the admission check of `startSession`, the
  folding of one engine event by `runAnalysis`, the terminal paths
  (explicit terminal event, silent stream end, caught exception — each
  followed by the `finally` promotion), retry, delete (fused with the
  promotion performed by the aborted task's `finally`), and
  `loadSessions`.
-/

/-- Session status, from `types.ts`. -/
inductive SessionStatus where
  | pending
  | queued
  | running
  | completed
  | error
deriving DecidableEq, Repr

/-- Session record, from the `Session` interface of `types.ts` plus the
`_analysts` stash modelled as `selectedStages`. -/
structure Session where
  id : String
  ticker : String
  stockName : String
  market : String
  model : String
  startDate : String
  endDate : String
  userId : String
  status : SessionStatus
  decision : String
  progress : List String
  reports : List (String × String)
  createdAt : Nat
  errorMsg : String
  currentAgent : String
  selectedStages : Option (List String)
deriving DecidableEq, Repr

/-- The in-memory store (`SessionManager.sessions`, in map order) together
with the persisted snapshot (`sessions.json`). -/
structure World where
  store : List Session
  disk : List Session
deriving DecidableEq, Repr

/-- The fixed pipeline stage order, from `config.ts` (`AGENT_ORDER`). -/
def AGENT_ORDER : List String :=
  ["Market Analyst", "Social Analyst", "News Analyst", "Fundamentals Analyst",
   "Bull Researcher", "Bear Researcher", "Research Manager", "Trader",
   "Risky Analyst", "Safe Analyst", "Neutral Analyst", "Risk Manager",
   "Portfolio Manager"]

/-- Helper for `getNextAgent`: the element following the first occurrence
of `x`, or `""` when `x` is absent or last. -/
def nextAfter (x : String) : List String → String
  | [] => ""
  | a :: rest => if a = x then rest.headD "" else nextAfter x rest

/-- Next agent in the fixed order (`getNextAgent` in `session-manager.ts`). -/
def getNextAgent (currentAgent : String) : String :=
  nextAfter currentAgent AGENT_ORDER

/-- JS truthiness of a `string | null | undefined` value. -/
def truthy : Option String → Bool
  | none => false
  | some s => s ≠ ""

/-- Models the JS expression `c || d` for `c : string | null` and a
non-null default `d`. -/
def strOr (c : Option String) (d : String) : String :=
  match c with
  | none => d
  | some s => if s = "" then d else s

/-- Models `s.substring(0, 200)` (the error-message truncation). -/
def jsSubstring200 (s : String) : String :=
  ⟨s.data.take 200⟩

/-- Message computed by the `catch` block of `runAnalysis`:
`error.message?.substring(0, 200) || 'Unknown error'`. -/
def catchMsg : Option String → String
  | none => "Unknown error"
  | some m => if jsSubstring200 m = "" then "Unknown error" else jsSubstring200 m

/-- Association-list read on a `Record<string, string>`. -/
def alookup (k : String) : List (String × String) → Option String
  | [] => none
  | (a, v) :: rest => if a = k then some v else alookup k rest

/-- Association-list write (`obj[k] = v`): an existing key keeps its
position, a fresh key is appended. -/
def setReport (r : List (String × String)) (k v : String) : List (String × String) :=
  match r with
  | [] => [(k, v)]
  | (a, w) :: rest => if a = k then (k, v) :: rest else (a, w) :: setReport rest k v

/-- Store read, `this.sessions.get(id)`. -/
def lookup (i : String) (l : List Session) : Option Session :=
  l.find? (fun s => s.id = i)

/-- In-place update of the session with id `i` (mutation of the record
object held in the map). -/
def upd (i : String) (f : Session → Session) (l : List Session) : List Session :=
  l.map (fun s => if s.id = i then f s else s)

/-- Key uniqueness of the store (a `Map` holds one binding per key). -/
def NodupKeys (l : List Session) : Prop :=
  (l.map Session.id).Nodup

instance : DecidablePred NodupKeys := fun l =>
  inferInstanceAs (Decidable ((l.map Session.id).Nodup))

/-- Map insertion, `this.sessions.set(s.id, s)`: replace in place when the
key exists, append otherwise. -/
def insertSession (s : Session) (l : List Session) : List Session :=
  if l.any (fun t => t.id = s.id) then upd s.id (fun _ => s) l else l ++ [s]

/-- Inputs of `createSession`; `id` and `createdAt` stand for the values
produced by `generateId()` and `new Date(...)` at the call. -/
structure CreateParams where
  id : String
  ticker : String
  stockName : String
  market : String
  model : String
  startDate : String
  endDate : String
  userId : String
  createdAt : Nat
deriving DecidableEq, Repr

/-- The record built by `createSession`. -/
def mkSession (p : CreateParams) : Session :=
  { id := p.id, ticker := p.ticker, stockName := p.stockName,
    market := p.market, model := p.model, startDate := p.startDate,
    endDate := p.endDate, userId := p.userId, status := .pending,
    decision := "", progress := [], reports := [], createdAt := p.createdAt,
    errorMsg := "", currentAgent := "", selectedStages := none }

/-- Write the full snapshot to disk (`saveSessions`). -/
def save (w : World) : World :=
  { w with disk := w.store }

/-- The operation `createSession` (insert the new pending record, save). -/
def opCreate (p : CreateParams) (w : World) : World :=
  save { w with store := insertSession (mkSession p) w.store }

/-- Access-controlled read (`getSession(sessionId, userId?, isAdmin?)`).
An absent (`undefined`) `userId` behaves exactly like `""` in the JS
truthiness tests, so the requester id is a plain `String`. -/
def getSession (store : List Session) (sessionId : String) (userId : String)
    (isAdmin : Bool) : Option Session :=
  match lookup sessionId store with
  | none => none
  | some s =>
    if isAdmin then some s
    else if userId ≠ "" ∧ s.userId ≠ "" ∧ s.userId ≠ userId then none
    else some s

/-- First running session owned by `userId` (`getUserRunningSession`). -/
def getUserRunningSession (userId : String) : List Session → Option Session
  | [] => none
  | s :: rest =>
    if s.status = .running ∧ s.userId = userId then some s
    else getUserRunningSession userId rest

/-- Default stage selection (`['market', 'social', 'news', 'fundamentals']`). -/
def defaultAnalysts : List String := ["market", "social", "news", "fundamentals"]

/-- The immediate-start path `startSessionNow`: set `running`, point
`currentAgent` at the first stage, save.  (The launched aggregator task is
modelled by the event-folding operations below.) -/
def startSessionNow (i : String) (w : World) : World :=
  match lookup i w.store with
  | none => w
  | some _ =>
    save { w with
      store := upd i (fun t =>
        { t with status := .running, currentAgent := AGENT_ORDER.headD "" }) w.store }

/-- The loop of `startNextQueuedSession`: earliest-created queued session
of `u`, strict `<` so the first minimal element in map order wins ties. -/
def findOldestAux (u : String) (best : Option Session) : List Session → Option Session
  | [] => best
  | s :: rest =>
    if s.status = .queued ∧ s.userId = u then
      match best with
      | none => findOldestAux u (some s) rest
      | some b =>
        if s.createdAt < b.createdAt then findOldestAux u (some s) rest
        else findOldestAux u best rest
    else findOldestAux u best rest

/-- Oldest queued session of a user (`startNextQueuedSession`'s scan). -/
def findOldestQueued (u : String) (l : List Session) : Option Session :=
  findOldestAux u none l

/-- Promotion (`startNextQueuedSession`): start the oldest queued session
of `u` through the immediate-start path, if any. -/
def promoteNext (u : String) (w : World) : World :=
  match findOldestQueued u w.store with
  | none => w
  | some j => startSessionNow j.id w

/-- The `finally` clause of `runAnalysis`: promote the next queued session
of the owning user (skipped for an empty `userId`). -/
def afterRun (i : String) (w : World) : World :=
  match lookup i w.store with
  | none => w
  | some s => if s.userId = "" then w else promoteNext s.userId w

/-- The admission operation `startSession` (stash the stage selection,
queue when the user already has a running session, start otherwise). -/
def opStart (i : String) (analysts : List String) (w : World) : World :=
  match lookup i w.store with
  | none => w
  | some s =>
    let w1 : World :=
      { w with store := upd i (fun t => { t with selectedStages := some analysts }) w.store }
    match getUserRunningSession s.userId w1.store with
    | some _ =>
      save { w1 with store := upd i (fun t => { t with status := .queued }) w1.store }
    | none => startSessionNow i w1

/-- Event types of the engine feed (`AnalyzeStreamTokenChunk`). -/
inductive EventType where
  | node_start
  | token
  | node_end
  | heartbeat
  | complete
  | error
  | quota_error
  | timeout_error
deriving DecidableEq, Repr

/-- One engine event. -/
structure StreamChunk where
  type : EventType
  agent : Option String
  content : Option String
deriving DecidableEq, Repr

/-- Local variables of the `runAnalysis` loop (`currentAgent`,
`accumulatedContent`, `tokenCount`). -/
structure AccState where
  currentAgent : String
  accumulated : String
  tokenCount : Nat
deriving DecidableEq, Repr

/-- Initial local state of the loop. -/
def accInit : AccState := { currentAgent := "", accumulated := "", tokenCount := 0 }

/-- Folding of one engine event by the `switch` of `runAnalysis`.  Returns
the new world, the new local state and whether the task returned (a
terminal event).  When the session is no longer in the store (deleted
mid-run) the mutations hit a dead object and the store is unaffected. -/
def runStep (i : String) (ev : StreamChunk) (w : World) (acc : AccState) :
    World × AccState × Bool :=
  match lookup i w.store with
  | none => (w, acc, false)
  | some _ =>
    match ev.type with
    | .heartbeat => (w, acc, false)
    | .node_start =>
      if truthy ev.agent then
        let a := ev.agent.getD ""
        (save { w with store := upd i (fun s => { s with currentAgent := a }) w.store },
         { currentAgent := a, accumulated := "", tokenCount := 0 }, false)
      else (w, acc, false)
    | .token =>
      if truthy ev.agent ∧ truthy ev.content then
        let a := ev.agent.getD ""
        let acc' : AccState :=
          { acc with accumulated := acc.accumulated ++ ev.content.getD "",
                     tokenCount := acc.tokenCount + 1 }
        ({ w with store := upd i (fun s =>
            { s with reports := setReport s.reports a acc'.accumulated }) w.store },
         acc', false)
      else (w, acc, false)
    | .node_end =>
      let w' :=
        if truthy ev.agent ∧ truthy ev.content then
          let a := ev.agent.getD ""
          save { w with store := upd i (fun s =>
            { s with reports := setReport s.reports a (ev.content.getD ""),
                     progress := s.progress ++ [a],
                     currentAgent := getNextAgent a }) w.store }
        else w
      (w', { acc with currentAgent := "", accumulated := "" }, false)
    | .complete =>
      (save { w with store := upd i (fun s =>
        { s with decision := strOr ev.content "HOLD", status := .completed,
                 currentAgent := "" }) w.store }, acc, true)
    | .quota_error =>
      (save { w with store := upd i (fun s =>
        { s with status := .error, errorMsg := "API quota exhausted",
                 currentAgent := "" }) w.store }, acc, true)
    | .timeout_error =>
      (save { w with store := upd i (fun s =>
        { s with status := .error, errorMsg := "Network response timeout",
                 currentAgent := "" }) w.store }, acc, true)
    | .error =>
      (save { w with store := upd i (fun s =>
        { s with status := .error,
                 errorMsg := jsSubstring200 (strOr ev.content "Unknown error"),
                 currentAgent := "" }) w.store }, acc, true)

/-- Folding of an event list, stopping when the task returns. -/
def runEvents (i : String) : List StreamChunk → World → AccState →
    World × AccState × Bool
  | [], w, acc => (w, acc, false)
  | ev :: rest, w, acc =>
    match runStep i ev w acc with
    | (w', acc', true) => (w', acc', true)
    | (w', acc', false) => runEvents i rest w' acc'

/-- Silent-stream-end handling of `runAnalysis`: a session still `running`
when the feed ends is marked `completed` (without touching `decision`). -/
def silentEnd (i : String) (w : World) : World :=
  match lookup i w.store with
  | none => w
  | some s =>
    if s.status = .running then
      save { w with store := upd i (fun t =>
        { t with status := .completed, currentAgent := "" }) w.store }
    else w

/-- The `catch` block of `runAnalysis`: transport failure with message
`msg` (`none` models a missing `error.message`). -/
def catchErr (i : String) (msg : Option String) (w : World) : World :=
  match lookup i w.store with
  | none => w
  | some _ =>
    save { w with store := upd i (fun s =>
      { s with status := .error, errorMsg := catchMsg msg,
               currentAgent := "" }) w.store }

/-- The operation `deleteSession`, fused with the promotion that the
aborted task's `finally` performs when the deleted session was running
(and its `userId` non-empty). -/
def opDeleteFused (i : String) (w : World) : World :=
  match lookup i w.store with
  | none => w
  | some s =>
    let w' := save { w with store := w.store.filter (fun t => ¬ t.id = i) }
    if s.status = .running ∧ s.userId ≠ "" then promoteNext s.userId w' else w'

/-- The operation `retrySession`: reset the record, save, re-enter the
admission path with the given (or default) stage selection. -/
def retrySession (i : String) (analysts : Option (List String)) (w : World) : World :=
  match lookup i w.store with
  | none => w
  | some _ =>
    let w1 := save { w with store := upd i (fun s =>
      { s with status := .pending, errorMsg := "", progress := [],
               reports := [], decision := "", currentAgent := "" }) w.store }
    opStart i (analysts.getD defaultAnalysts) w1

/-- Outcome of the retry route. -/
inductive RetryOutcome where
  | notFound
  | invalidTransition
  | ok
deriving DecidableEq, Repr

/-- The `POST /api/sessions/:id/retry` handler of `routes/sessions.ts`:
access-controlled fetch, status guard, then `retrySession`. -/
def retryRoute (w : World) (i : String) (userId : String) (isAdmin : Bool) :
    RetryOutcome × World :=
  match getSession w.store i userId isAdmin with
  | none => (.notFound, w)
  | some s =>
    if s.status = .error then (.ok, retrySession i none w)
    else (.invalidTransition, w)

/-- Filtering of `getAllSessions` by requester identity. -/
def filterFor (userId : String) (isAdmin : Bool) (l : List Session) : List Session :=
  if isAdmin then l
  else if userId ≠ "" then l.filter (fun s => s.userId = userId)
  else l.filter (fun s => s.userId = "")

/-- Stable descending insertion by parsed `createdAt` (one step of the
stable `sort((a, b) => time(b) - time(a))`). -/
def insertDesc (s : Session) : List Session → List Session
  | [] => [s]
  | t :: rest =>
    if t.createdAt ≤ s.createdAt then s :: t :: rest else t :: insertDesc s rest

/-- Stable descending sort by `createdAt` (`getAllSessions`' sort). -/
def sortDesc (l : List Session) : List Session :=
  l.foldr insertDesc []

/-- The query `getAllSessions` (filter by requester, newest first). -/
def getAllSessions (userId : String) (isAdmin : Bool) (l : List Session) :
    List Session :=
  sortDesc (filterFor userId isAdmin l)

/-- Summary record (`SessionSummary` of `types.ts`): every `Session` field
except `reports` (and the `selectedStages` stash), plus the transient
`queuePosition`. -/
structure SessionSummary where
  id : String
  ticker : String
  stockName : String
  market : String
  model : String
  startDate : String
  endDate : String
  userId : String
  status : SessionStatus
  decision : String
  progress : List String
  createdAt : Nat
  errorMsg : String
  currentAgent : String
  queuePosition : Option Nat
deriving DecidableEq, Repr

/-- Projection of a session to its summary. -/
def mkSummary (s : Session) (qp : Option Nat) : SessionSummary :=
  { id := s.id, ticker := s.ticker, stockName := s.stockName,
    market := s.market, model := s.model, startDate := s.startDate,
    endDate := s.endDate, userId := s.userId, status := s.status,
    decision := s.decision, progress := s.progress, createdAt := s.createdAt,
    errorMsg := s.errorMsg, currentAgent := s.currentAgent,
    queuePosition := qp }

/-- Queue-position key, `session.userId || '__anonymous__'`. -/
def userKey (s : Session) : String :=
  if s.userId = "" then "__anonymous__" else s.userId

/-- Queue-position key of a summary. -/
def userKeyS (x : SessionSummary) : String :=
  if x.userId = "" then "__anonymous__" else x.userId

/-- Counter read, `(userQueuePositions.get(key) || 0)`. -/
def aget (k : String) : List (String × Nat) → Nat
  | [] => 0
  | (a, v) :: rest => if a = k then v else aget k rest

/-- Counter write, `userQueuePositions.set(key, pos)`. -/
def aset (k : String) (v : Nat) (m : List (String × Nat)) : List (String × Nat) :=
  match m with
  | [] => [(k, v)]
  | (a, o) :: rest => if a = k then (k, v) :: rest else (a, o) :: aset k v rest

/-- The summary-building loop of `getAllSessionSummaries`, threading the
per-user queue counters. -/
def summarizeAux : List Session → List (String × Nat) → List SessionSummary
  | [], _ => []
  | s :: rest, pm =>
    if s.status = .queued then
      let pos := aget (userKey s) pm + 1
      mkSummary s (some pos) :: summarizeAux rest (aset (userKey s) pos pm)
    else
      mkSummary s none :: summarizeAux rest pm

/-- The query `getAllSessionSummaries`. -/
def getAllSessionSummaries (userId : String) (isAdmin : Bool) (l : List Session) :
    List SessionSummary :=
  summarizeAux (getAllSessions userId isAdmin l) []

/-- Erase the `reports` field (used to state that summaries do not depend
on it). -/
def eraseReports (s : Session) : Session :=
  { s with reports := [] }

/-- Number of queued sessions with queue key `k` in a list. -/
def qcountS (k : String) (l : List Session) : Nat :=
  l.countP (fun t => decide (t.status = .queued ∧ userKey t = k))

/-- Number of queued summaries with queue key `k` in a summary list. -/
def qcountSummary (k : String) (l : List SessionSummary) : Nat :=
  l.countP (fun t => decide (t.status = .queued ∧ userKeyS t = k))

/-- Sample session record for concrete instances. -/
def sampleSession (i u : String) (st : SessionStatus) (t : Nat) : Session :=
  { id := i, ticker := "600519", stockName := "", market := "A-share",
    model := "deepseek-v3", startDate := "2024-01-01", endDate := "2024-01-15",
    userId := u, status := st, decision := "", progress := [], reports := [],
    createdAt := t, errorMsg := "", currentAgent := "", selectedStages := none }

/-- Sample creation parameters for user alice. -/
def params1 : CreateParams :=
  { id := "s1", ticker := "600519", stockName := "", market := "A-share",
    model := "deepseek-v3", startDate := "2024-01-01", endDate := "2024-01-15",
    userId := "alice", createdAt := 100 }

/-- The event sequence of the streaming scenario. -/
def evsC2 : List StreamChunk :=
  [{ type := .node_start, agent := some "Market Analyst", content := none },
   { type := .token, agent := some "Market Analyst", content := some "Price " },
   { type := .token, agent := some "Market Analyst", content := some "is up." },
   { type := .node_end, agent := some "Market Analyst",
     content := some "Price is up." }]

/-- World with one running session, for the streaming scenario. -/
def W2 : World := ⟨[sampleSession "x" "alice" .running 5], []⟩

/-- World with one running and one pending anonymous session. -/
def W4 : World :=
  ⟨[sampleSession "anon1" "" .running 1, sampleSession "anon2" "" .pending 2], []⟩

/-- World where alice has a finished session and two queued sessions. -/
def W5 : World :=
  ⟨[sampleSession "d1" "alice" .completed 10, sampleSession "d2" "alice" .queued 30,
    sampleSession "d3" "alice" .queued 20], []⟩

/-- World with one running session, identical snapshot on disk. -/
def W7 : World :=
  ⟨[sampleSession "a" "alice" .running 1], [sampleSession "a" "alice" .running 1]⟩

/-- Failed session of alice with residual run data. -/
def sErr : Session :=
  { sampleSession "e1" "alice" .error 7 with
      errorMsg := "API quota exhausted", progress := ["Market Analyst"],
      reports := [("Market Analyst", "partial report")] }

/-- World containing only the failed session `sErr`. -/
def W8 : World := ⟨[sErr], [sErr]⟩

/-- Store with two queued sessions of alice (createdAt 100 and 200). -/
def storeC9 : List Session :=
  [sampleSession "q1" "alice" .queued 100, sampleSession "q2" "alice" .queued 200]

/-- World with one running session of bob. -/
def W10 : World := ⟨[sampleSession "t1" "bob" .running 4], []⟩

/-! ### Basic store lemmas -/

theorem lookup_cons {i : String} {t : Session} {l : List Session} :
    lookup i (t :: l) = if t.id = i then some t else lookup i l := by
  by_cases h : t.id = i
  · simp [lookup, List.find?_cons_of_pos, h]
  · simp [lookup, List.find?_cons_of_neg, h]

theorem upd_cons {i : String} {f : Session → Session} {t : Session}
    {l : List Session} :
    upd i f (t :: l) = (if t.id = i then f t else t) :: upd i f l := by
  simp [upd]

theorem lookup_upd_self {i : String} {f : Session → Session} {l : List Session}
    (hf : ∀ y, y.id = i → (f y).id = y.id) :
    lookup i (upd i f l) = (lookup i l).map f := by
  induction l with
  | nil => rfl
  | cons t l ih =>
    by_cases h : t.id = i
    · have hfi : (f t).id = i := by rw [hf t h, h]
      rw [upd_cons, if_pos h, lookup_cons, if_pos hfi, lookup_cons, if_pos h]
      rfl
    · rw [upd_cons, if_neg h, lookup_cons, if_neg h, lookup_cons, if_neg h, ih]

theorem lookup_upd_ne {i j : String} {f : Session → Session} {l : List Session}
    (hne : j ≠ i) (hf : ∀ y, y.id = i → (f y).id = y.id) :
    lookup j (upd i f l) = lookup j l := by
  induction l with
  | nil => rfl
  | cons t l ih =>
    by_cases h : t.id = i
    · have hfi : (f t).id = i := by rw [hf t h, h]
      have h1 : ¬ (f t).id = j := by rw [hfi]; exact fun e => hne e.symm
      have h2 : ¬ t.id = j := by rw [h]; exact fun e => hne e.symm
      rw [upd_cons, if_pos h, lookup_cons, if_neg h1, lookup_cons, if_neg h2, ih]
    · rw [upd_cons, if_neg h, lookup_cons, lookup_cons, ih]

theorem keys_upd {i : String} {f : Session → Session} {l : List Session}
    (hf : ∀ y, y.id = i → (f y).id = y.id) :
    (upd i f l).map Session.id = l.map Session.id := by
  induction l with
  | nil => rfl
  | cons t l ih =>
    by_cases h : t.id = i
    · rw [upd_cons, if_pos h]
      simp [hf t h, ih]
    · rw [upd_cons, if_neg h]
      simp [ih]

theorem nodupKeys_upd {i : String} {f : Session → Session} {l : List Session}
    (hf : ∀ y, y.id = i → (f y).id = y.id) (h : NodupKeys l) :
    NodupKeys (upd i f l) := by
  unfold NodupKeys at h ⊢
  rw [keys_upd hf]
  exact h

theorem nodupKeys_cons {t : Session} {l : List Session} :
    NodupKeys (t :: l) ↔ (∀ y ∈ l, y.id ≠ t.id) ∧ NodupKeys l := by
  unfold NodupKeys
  simp only [List.map_cons, List.nodup_cons, List.mem_map]
  constructor
  · rintro ⟨h1, h2⟩
    exact ⟨fun y hy e => h1 ⟨y, hy, e⟩, h2⟩
  · rintro ⟨h1, h2⟩
    exact ⟨fun ⟨y, hy, e⟩ => h1 y hy e, h2⟩

theorem mem_nodup_lookup {l : List Session} {s : Session}
    (hn : NodupKeys l) (hm : s ∈ l) : lookup s.id l = some s := by
  induction l with
  | nil => cases hm
  | cons t l ih =>
    rw [nodupKeys_cons] at hn
    rcases List.mem_cons.mp hm with h | h
    · subst h
      rw [lookup_cons, if_pos rfl]
    · have hne : ¬ t.id = s.id := fun e => hn.1 s h (e.symm)
      rw [lookup_cons, if_neg hne]
      exact ih hn.2 h

theorem gurs_upd_untouched {u i : String} {f : Session → Session}
    {l : List Session}
    (hf : ∀ y ∈ l, y.id = i →
      ¬ (y.status = .running ∧ y.userId = u) ∧
      ¬ ((f y).status = .running ∧ (f y).userId = u)) :
    getUserRunningSession u (upd i f l) = getUserRunningSession u l := by
  induction l with
  | nil => rfl
  | cons t l ih =>
    have hrest : ∀ y ∈ l, y.id = i →
        ¬ (y.status = .running ∧ y.userId = u) ∧
        ¬ ((f y).status = .running ∧ (f y).userId = u) :=
      fun y hy => hf y (List.mem_cons_of_mem _ hy)
    rw [upd_cons]
    by_cases h : t.id = i
    · rw [if_pos h]
      rw [getUserRunningSession, getUserRunningSession,
        if_neg (hf t (List.mem_cons_self _ _) h).2,
        if_neg (hf t (List.mem_cons_self _ _) h).1, ih hrest]
    · rw [if_neg h]
      rw [getUserRunningSession, getUserRunningSession]
      by_cases hm : t.status = .running ∧ t.userId = u
      · rw [if_pos hm, if_pos hm]
      · rw [if_neg hm, if_neg hm, ih hrest]

/-! ### Oldest-queued scan lemmas -/

theorem fo_best_some {u : String} (l : List Session) (b : Session) :
    ∃ j, findOldestAux u (some b) l = some j := by
  induction l generalizing b with
  | nil => exact ⟨b, rfl⟩
  | cons s rest ih =>
    unfold findOldestAux
    by_cases hm : s.status = .queued ∧ s.userId = u
    · rw [if_pos hm]
      dsimp only
      by_cases hc : s.createdAt < b.createdAt
      · rw [if_pos hc]; exact ih s
      · rw [if_neg hc]; exact ih b
    · rw [if_neg hm]; exact ih b

theorem fo_le_best {u : String} {l : List Session} {b j : Session}
    (h : findOldestAux u (some b) l = some j) : j.createdAt ≤ b.createdAt := by
  induction l generalizing b with
  | nil =>
    unfold findOldestAux at h
    cases h
    exact le_refl _
  | cons s rest ih =>
    unfold findOldestAux at h
    by_cases hm : s.status = .queued ∧ s.userId = u
    · rw [if_pos hm] at h
      dsimp only at h
      by_cases hc : s.createdAt < b.createdAt
      · rw [if_pos hc] at h
        exact le_trans (ih h) (le_of_lt hc)
      · rw [if_neg hc] at h
        exact ih h
    · rw [if_neg hm] at h
      exact ih h

theorem fo_cases {u : String} {l : List Session} {best : Option Session} {j : Session}
    (h : findOldestAux u best l = some j) :
    best = some j ∨ (j ∈ l ∧ j.status = .queued ∧ j.userId = u) := by
  induction l generalizing best with
  | nil =>
    unfold findOldestAux at h
    exact Or.inl h
  | cons s rest ih =>
    unfold findOldestAux at h
    by_cases hm : s.status = .queued ∧ s.userId = u
    · rw [if_pos hm] at h
      match best with
      | none =>
        rcases ih h with h2 | h2
        · cases h2
          exact Or.inr ⟨List.mem_cons_self _ _, hm⟩
        · exact Or.inr ⟨List.mem_cons_of_mem _ h2.1, h2.2⟩
      | some b =>
        dsimp only at h
        by_cases hc : s.createdAt < b.createdAt
        · rw [if_pos hc] at h
          rcases ih h with h2 | h2
          · cases h2
            exact Or.inr ⟨List.mem_cons_self _ _, hm⟩
          · exact Or.inr ⟨List.mem_cons_of_mem _ h2.1, h2.2⟩
        · rw [if_neg hc] at h
          rcases ih h with h2 | h2
          · exact Or.inl h2
          · exact Or.inr ⟨List.mem_cons_of_mem _ h2.1, h2.2⟩
    · rw [if_neg hm] at h
      rcases ih h with h2 | h2
      · exact Or.inl h2
      · exact Or.inr ⟨List.mem_cons_of_mem _ h2.1, h2.2⟩

theorem fo_min {u : String} {l : List Session} {best : Option Session} {j : Session}
    (h : findOldestAux u best l = some j) :
    ∀ k ∈ l, k.status = .queued → k.userId = u → j.createdAt ≤ k.createdAt := by
  induction l generalizing best with
  | nil => intro k hk; cases hk
  | cons s rest ih =>
    intro k hk hkq hku
    unfold findOldestAux at h
    by_cases hm : s.status = .queued ∧ s.userId = u
    · rw [if_pos hm] at h
      match best with
      | none =>
        rcases List.mem_cons.mp hk with he | he
        · subst he; exact fo_le_best h
        · exact ih h k he hkq hku
      | some b =>
        dsimp only at h
        by_cases hc : s.createdAt < b.createdAt
        · rw [if_pos hc] at h
          rcases List.mem_cons.mp hk with he | he
          · subst he; exact fo_le_best h
          · exact ih h k he hkq hku
        · rw [if_neg hc] at h
          rcases List.mem_cons.mp hk with he | he
          · subst he
            exact le_trans (fo_le_best h) (le_of_not_lt hc)
          · exact ih h k he hkq hku
    · rw [if_neg hm] at h
      rcases List.mem_cons.mp hk with he | he
      · subst he; exact absurd ⟨hkq, hku⟩ hm
      · exact ih h k he hkq hku

theorem findOldestQueued_none_iff {u : String} {l : List Session} :
    findOldestQueued u l = none ↔
      ∀ k ∈ l, ¬ (k.status = .queued ∧ k.userId = u) := by
  unfold findOldestQueued
  induction l with
  | nil => simp [findOldestAux]
  | cons s rest ih =>
    unfold findOldestAux
    by_cases hm : s.status = .queued ∧ s.userId = u
    · rw [if_pos hm]
      rcases fo_best_some (u := u) rest s with ⟨j, hj⟩
      simp only [hj]
      constructor
      · intro he; cases he
      · intro hall
        exact absurd hm (hall s (List.mem_cons_self _ _))
    · rw [if_neg hm]
      rw [ih]
      constructor
      · intro hall k hk
        rcases List.mem_cons.mp hk with he | he
        · subst he; exact hm
        · exact hall k he
      · intro hall k hk
        exact hall k (List.mem_cons_of_mem _ hk)

theorem findOldestQueued_spec {u : String} {l : List Session} {j : Session}
    (h : findOldestQueued u l = some j) :
    j ∈ l ∧ j.status = .queued ∧ j.userId = u ∧
      ∀ k ∈ l, k.status = .queued → k.userId = u → j.createdAt ≤ k.createdAt := by
  rcases fo_cases h with h2 | h2
  · cases h2
  · exact ⟨h2.1, h2.2.1, h2.2.2, fo_min h⟩

/-! ### Invariant toolkit -/

theorem mem_id_eq {i : String} {l : List Session} {s y : Session}
    (hn : NodupKeys l) (hs : lookup i l = some s) (hy : y ∈ l)
    (hyi : y.id = i) : y = s := by
  have h2 := mem_nodup_lookup hn hy
  rw [hyi, hs] at h2
  exact (Option.some_inj.mp h2).symm

/-- C3 counterexample: an anonymous non-admin requester (`userId = ""`)
obtains alice's session from `getSession` instead of the not-found result
the claim requires for a non-owner. -/
theorem C3_counterexample :
    (sampleSession "a" "alice" .completed 3).userId = "alice" ∧
    getSession [sampleSession "a" "alice" .completed 3] "a" "" false =
      some (sampleSession "a" "alice" .completed 3) :=
  ⟨rfl, by decide⟩

/-- C3 (amended): `getSession` returns a stored session `s` to a requester
exactly when the requester is admin, or the requester id is empty, or the
record is anonymous, or the record's owner is the requester; every other
case (including an unknown id) yields the not-found result `none`. -/
theorem C3_getSession_access (store : List Session) (i uid : String) (adm : Bool)
    (s : Session) :
    getSession store i uid adm = some s ↔
      lookup i store = some s ∧
        (adm = true ∨ uid = "" ∨ s.userId = "" ∨ s.userId = uid) := by
  unfold getSession
  cases hl : lookup i store with
  | none => simp
  | some t =>
    dsimp only
    constructor
    · intro he
      by_cases ha : adm = true
      · rw [if_pos ha] at he
        have hts := Option.some_inj.mp he
        subst hts
        exact ⟨rfl, Or.inl ha⟩
      · rw [if_neg ha] at he
        by_cases hcond : uid ≠ "" ∧ t.userId ≠ "" ∧ t.userId ≠ uid
        · rw [if_pos hcond] at he
          cases he
        · rw [if_neg hcond] at he
          have hts := Option.some_inj.mp he
          subst hts
          refine ⟨rfl, ?_⟩
          by_cases h1 : uid = ""
          · exact Or.inr (Or.inl h1)
          · by_cases h2 : t.userId = ""
            · exact Or.inr (Or.inr (Or.inl h2))
            · by_cases h3 : t.userId = uid
              · exact Or.inr (Or.inr (Or.inr h3))
              · exact absurd ⟨h1, h2, h3⟩ hcond
    · rintro ⟨he, hd⟩
      have hts := Option.some_inj.mp he
      subst hts
      by_cases ha : adm = true
      · rw [if_pos ha]
      · rw [if_neg ha]
        have hnc : ¬ (uid ≠ "" ∧ t.userId ≠ "" ∧ t.userId ≠ uid) := by
          rcases hd with h | h | h | h
          · exact absurd h ha
          · exact fun hcon => hcon.1 h
          · exact fun hcon => hcon.2.1 h
          · exact fun hcon => hcon.2.2 h
        rw [if_neg hnc]

/-! ### Claim C4 -/

/-- C4 (code evaluation at the failing input): with an anonymous session
already running, starting a second anonymous session sets its status to
`queued` — the admission check matches anonymous running sessions. -/
theorem C4_anonymous_queued :
    (lookup "anon2" (opStart "anon2" defaultAnalysts W4).store).map Session.status
      = some .queued := by
  decide

/-! ### Claim C6 -/

/-- C10: folding a `token` or `node_end` event whose `agent` or `content`
is null or empty leaves the world (in particular the session record)
completely unchanged. -/
theorem C10_empty_fields_no_op (w : World) (i : String) (ev : StreamChunk)
    (acc : AccState)
    (hty : ev.type = .token ∨ ev.type = .node_end)
    (hempty : truthy ev.agent = false ∨ truthy ev.content = false) :
    (runStep i ev w acc).1 = w := by
  obtain ⟨ty, ag, co⟩ := ev
  simp only at hty hempty
  have hcond : ¬ (truthy ag = true ∧ truthy co = true) := by
    rcases hempty with h | h <;> simp [h]
  unfold runStep
  cases hl : lookup i w.store with
  | none => rfl
  | some s =>
    dsimp only
    rcases hty with h | h <;> subst h
    · dsimp only
      rw [if_neg hcond]
    · dsimp only
      rw [if_neg hcond]

/-- Witness for C10: a `node_end` with empty content on a running session
changes nothing. -/
theorem C10_empty_fields_no_op_witness :
    (runStep "t1" { type := .node_end, agent := some "Market Analyst",
                    content := some "" } W10 accInit).1 = W10 :=
  C10_empty_fields_no_op W10 "t1" _ accInit (Or.inr rfl) (Or.inr (by decide))

/-! ### Claim C7 -/

theorem ds_startSessionNow {w : World} (i : String) (hds : w.disk = w.store) :
    (startSessionNow i w).disk = (startSessionNow i w).store := by
  unfold startSessionNow
  cases hl : lookup i w.store with
  | none => exact hds
  | some s => rfl

theorem ds_promoteNext {w : World} (u : String) (hds : w.disk = w.store) :
    (promoteNext u w).disk = (promoteNext u w).store := by
  unfold promoteNext
  cases hfo : findOldestQueued u w.store with
  | none => exact hds
  | some j => exact ds_startSessionNow j.id hds

theorem ds_afterRun {w : World} (i : String) (hds : w.disk = w.store) :
    (afterRun i w).disk = (afterRun i w).store := by
  unfold afterRun
  cases hl : lookup i w.store with
  | none => exact hds
  | some s =>
    dsimp only
    by_cases hu : s.userId = ""
    · rw [if_pos hu]; exact hds
    · rw [if_neg hu]; exact ds_promoteNext s.userId hds

theorem ds_opStart {w : World} (i : String) (analysts : List String)
    (hds : w.disk = w.store) :
    (opStart i analysts w).disk = (opStart i analysts w).store := by
  unfold opStart
  cases hl : lookup i w.store with
  | none => exact hds
  | some s =>
    dsimp only
    cases hg : getUserRunningSession s.userId
        (upd i (fun t => { t with selectedStages := some analysts }) w.store) with
    | some r => rfl
    | none =>
      unfold startSessionNow
      have hl2 : lookup i
          (upd i (fun t => { t with selectedStages := some analysts }) w.store) =
          some ({ s with selectedStages := some analysts }) := by
        rw [lookup_upd_self (f := fun t => { t with selectedStages := some analysts })
          (fun y _ => rfl), hl]
        rfl
      rw [hl2]
      rfl

theorem ds_silentEnd {w : World} (i : String) (hds : w.disk = w.store) :
    (silentEnd i w).disk = (silentEnd i w).store := by
  unfold silentEnd
  cases hl : lookup i w.store with
  | none => exact hds
  | some s =>
    dsimp only
    by_cases hr : s.status = .running
    · rw [if_pos hr]; rfl
    · rw [if_neg hr]; exact hds

theorem ds_catchErr {w : World} (i : String) (msg : Option String)
    (hds : w.disk = w.store) :
    (catchErr i msg w).disk = (catchErr i msg w).store := by
  unfold catchErr
  cases hl : lookup i w.store with
  | none => exact hds
  | some s => rfl

theorem ds_runStep {w : World} (i : String) (ev : StreamChunk) (acc : AccState)
    (hne : ev.type ≠ .token) (hds : w.disk = w.store) :
    ((runStep i ev w acc).1).disk = ((runStep i ev w acc).1).store := by
  obtain ⟨ty, ag, co⟩ := ev
  simp only at hne
  unfold runStep
  cases hl : lookup i w.store with
  | none => exact hds
  | some s =>
    dsimp only
    cases ty with
    | heartbeat => exact hds
    | node_start =>
      dsimp only
      by_cases ha : truthy ag = true
      · rw [if_pos ha]; rfl
      · rw [if_neg ha]; exact hds
    | token => exact absurd rfl hne
    | node_end =>
      dsimp only
      by_cases hc : truthy ag = true ∧ truthy co = true
      · rw [if_pos hc]; rfl
      · rw [if_neg hc]; exact hds
    | complete => rfl
    | quota_error => rfl
    | timeout_error => rfl
    | error => rfl

theorem ds_retrySession {w : World} (i : String) (analysts : Option (List String))
    (hds : w.disk = w.store) :
    (retrySession i analysts w).disk = (retrySession i analysts w).store := by
  unfold retrySession
  cases hl : lookup i w.store with
  | none => exact hds
  | some s =>
    dsimp only
    exact ds_opStart i (analysts.getD defaultAnalysts) rfl

theorem ds_opDeleteFused {w : World} (i : String) (hds : w.disk = w.store) :
    (opDeleteFused i w).disk = (opDeleteFused i w).store := by
  unfold opDeleteFused
  cases hl : lookup i w.store with
  | none => exact hds
  | some s =>
    dsimp only
    by_cases hc : s.status = .running ∧ s.userId ≠ ""
    · rw [if_pos hc]
      exact ds_promoteNext s.userId rfl
    · rw [if_neg hc]; rfl

/-- C7 counterexample: folding a `token` event mutates the stored `reports`
without writing the snapshot, so memory and disk diverge — refuting
save-after-every-mutation. -/
theorem C7_token_skips_save :
    ((runStep "a" { type := .token, agent := some "Market Analyst",
                    content := some "up" } W7 accInit).1).disk ≠
      ((runStep "a" { type := .token, agent := some "Market Analyst",
                      content := some "up" } W7 accInit).1).store := by
  decide

/-- C7 (amended): starting from a state whose snapshot matches the store,
every mutating lifecycle operation except the `token`-event fold (and the
startup `loadSessions` rewrite) leaves the snapshot equal to the store —
each such operation ends in a full-snapshot write or changes nothing. -/
theorem C7_snapshot_after_ops (w : World) (hds : w.disk = w.store) :
    (∀ p, (opCreate p w).disk = (opCreate p w).store) ∧
    (∀ i analysts, (opStart i analysts w).disk = (opStart i analysts w).store) ∧
    (∀ i ev acc, ev.type ≠ EventType.token →
      ((runStep i ev w acc).1).disk = ((runStep i ev w acc).1).store) ∧
    (∀ i, (silentEnd i w).disk = (silentEnd i w).store) ∧
    (∀ i msg, (catchErr i msg w).disk = (catchErr i msg w).store) ∧
    (∀ i, (afterRun i w).disk = (afterRun i w).store) ∧
    (∀ i analysts, (retrySession i analysts w).disk =
      (retrySession i analysts w).store) ∧
    (∀ i, (opDeleteFused i w).disk = (opDeleteFused i w).store) :=
  ⟨fun _ => rfl,
   fun i analysts => ds_opStart i analysts hds,
   fun i ev acc hne => ds_runStep i ev acc hne hds,
   fun i => ds_silentEnd i hds,
   fun i msg => ds_catchErr i msg hds,
   fun i => ds_afterRun i hds,
   fun i analysts => ds_retrySession i analysts hds,
   fun i => ds_opDeleteFused i hds⟩

/-- Witness for C7 at the concrete world `W7`. -/
theorem C7_snapshot_after_ops_witness :
    (opCreate params1 W7).disk = (opCreate params1 W7).store :=
  (C7_snapshot_after_ops W7 rfl).1 params1

/-! ### Claim C5 -/

/-- C5: when a session of user `u` (non-empty `userId`) holds a terminal
status (`completed` or `error`) and `u` has at least one queued session,
the `finally`-path promotion starts exactly the queued session of `u` with
minimal `createdAt` through the immediate-start path, and every other
session's record is unchanged. -/
theorem C5_promotes_oldest_queued (w : World) (i u : String) (s : Session)
    (hn : NodupKeys w.store) (hs : lookup i w.store = some s)
    (hu : s.userId = u) (hune : u ≠ "")
    (_hterm : s.status = .completed ∨ s.status = .error)
    (hq : ∃ q ∈ w.store, q.status = .queued ∧ q.userId = u) :
    ∃ j ∈ w.store, j.status = .queued ∧ j.userId = u ∧
      (∀ k ∈ w.store, k.status = .queued → k.userId = u →
        j.createdAt ≤ k.createdAt) ∧
      afterRun i w = startSessionNow j.id w ∧
      lookup j.id (afterRun i w).store =
        some { j with status := .running,
                      currentAgent := AGENT_ORDER.headD "" } ∧
      (∀ k ∈ w.store, k.id ≠ j.id →
        lookup k.id (afterRun i w).store = some k) := by
  cases hfo : findOldestQueued u w.store with
  | none =>
    obtain ⟨q, hqmem, hqq, hqu⟩ := hq
    exact absurd ⟨hqq, hqu⟩ (findOldestQueued_none_iff.mp hfo q hqmem)
  | some j =>
    obtain ⟨hjmem, hjq, hju, hjmin⟩ := findOldestQueued_spec hfo
    have hlookj : lookup j.id w.store = some j := mem_nodup_lookup hn hjmem
    have haw : afterRun i w = startSessionNow j.id w := by
      unfold afterRun
      rw [hs]
      dsimp only
      rw [if_neg (by rw [hu]; exact hune)]
      unfold promoteNext
      rw [hu, hfo]
    have hssn : startSessionNow j.id w =
        save { w with store := upd j.id (fun t =>
          { t with status := SessionStatus.running,
                   currentAgent := AGENT_ORDER.headD "" }) w.store } := by
      unfold startSessionNow
      rw [hlookj]
    refine ⟨j, hjmem, hjq, hju, hjmin, haw, ?_, ?_⟩
    · rw [haw, hssn]
      show lookup j.id (upd j.id (fun t =>
        { t with status := SessionStatus.running,
                 currentAgent := AGENT_ORDER.headD "" }) w.store) = _
      rw [lookup_upd_self (f := fun t =>
        { t with status := SessionStatus.running,
                 currentAgent := AGENT_ORDER.headD "" }) (fun y _ => rfl), hlookj]
      rfl
    · intro k hk hkne
      rw [haw, hssn]
      show lookup k.id (upd j.id (fun t =>
        { t with status := SessionStatus.running,
                 currentAgent := AGENT_ORDER.headD "" }) w.store) = some k
      rw [lookup_upd_ne (f := fun t =>
        { t with status := SessionStatus.running,
                 currentAgent := AGENT_ORDER.headD "" }) hkne (fun y _ => rfl)]
      exact mem_nodup_lookup hn hk

/-- Witness for C5 at the concrete world `W5` (the promoted session is
`d3`, alice's queued session with the smaller `createdAt`). -/
theorem C5_promotes_oldest_queued_witness :
    ∃ j ∈ W5.store, j.status = .queued ∧ j.userId = "alice" ∧
      (∀ k ∈ W5.store, k.status = .queued → k.userId = "alice" →
        j.createdAt ≤ k.createdAt) ∧
      afterRun "d1" W5 = startSessionNow j.id W5 ∧
      lookup j.id (afterRun "d1" W5).store =
        some { j with status := .running,
                      currentAgent := AGENT_ORDER.headD "" } ∧
      (∀ k ∈ W5.store, k.id ≠ j.id →
        lookup k.id (afterRun "d1" W5).store = some k) :=
  C5_promotes_oldest_queued W5 "d1" "alice"
    (sampleSession "d1" "alice" .completed 10)
    (by decide) (by decide) rfl (by decide) (Or.inl rfl)
    ⟨sampleSession "d2" "alice" .queued 30, by decide, rfl, rfl⟩

/-! ### Claim C2 -/

theorem alookup_setReport_self (r : List (String × String)) (k v : String) :
    alookup k (setReport r k v) = some v := by
  induction r with
  | nil => simp [setReport, alookup]
  | cons p rest ih =>
    obtain ⟨a, w0⟩ := p
    unfold setReport
    by_cases h : a = k
    · rw [if_pos h]
      simp [alookup]
    · rw [if_neg h]
      simp only [alookup, if_neg h]
      exact ih

theorem runEvents_nil {i : String} {w : World} {acc : AccState} :
    runEvents i [] w acc = (w, acc, false) := rfl

theorem runEvents_cons_continue {i : String} {ev : StreamChunk}
    {rest : List StreamChunk} {w w' : World} {acc acc' : AccState}
    (h : runStep i ev w acc = (w', acc', false)) :
    runEvents i (ev :: rest) w acc = runEvents i rest w' acc' := by
  have h2 : runEvents i (ev :: rest) w acc =
      match runStep i ev w acc with
      | (w', acc', true) => (w', acc', true)
      | (w', acc', false) => runEvents i rest w' acc' := rfl
  rw [h2, h]

theorem runStep_node_start {w : World} {i : String} {s : Session}
    {acc : AccState} {a : String} {co : Option String}
    (hs : lookup i w.store = some s) (ha : a ≠ "") :
    runStep i { type := .node_start, agent := some a, content := co } w acc =
      (save { w with store := upd i (fun t => { t with currentAgent := a }) w.store },
       { currentAgent := a, accumulated := "", tokenCount := 0 }, false) := by
  unfold runStep
  rw [hs]
  dsimp only
  rw [if_pos (show truthy (some a) = true by simp [truthy, ha])]
  rfl

theorem runStep_token {w : World} {i : String} {s : Session} {acc : AccState}
    {a c : String}
    (hs : lookup i w.store = some s) (ha : a ≠ "") (hc : c ≠ "") :
    runStep i { type := .token, agent := some a, content := some c } w acc =
      ({ w with store := upd i (fun t =>
          { t with reports := setReport t.reports a (acc.accumulated ++ c) }) w.store },
       { acc with accumulated := acc.accumulated ++ c,
                  tokenCount := acc.tokenCount + 1 }, false) := by
  unfold runStep
  rw [hs]
  dsimp only
  rw [if_pos (show truthy (some a) = true ∧ truthy (some c) = true by
    constructor <;> simp [truthy, ha, hc])]
  rfl

theorem runStep_node_end {w : World} {i : String} {s : Session} {acc : AccState}
    {a c : String}
    (hs : lookup i w.store = some s) (ha : a ≠ "") (hc : c ≠ "") :
    runStep i { type := .node_end, agent := some a, content := some c } w acc =
      (save { w with store := upd i (fun t =>
          { t with reports := setReport t.reports a c,
                   progress := t.progress ++ [a],
                   currentAgent := getNextAgent a }) w.store },
       { acc with currentAgent := "", accumulated := "" }, false) := by
  unfold runStep
  rw [hs]
  dsimp only
  rw [if_pos (show truthy (some a) = true ∧ truthy (some c) = true by
    constructor <;> simp [truthy, ha, hc])]
  rfl

/-- C2: folding the scenario events on a running session with empty
progress yields the final `node_end` content in `reports` (replacing the
token accumulation), `progress = ["Market Analyst"]`, and `currentAgent`
equal to the stage following Market Analyst in `AGENT_ORDER`
(Social Analyst). -/
theorem C2_streaming_scenario (w : World) (i : String) (s : Session)
    (acc : AccState)
    (hs : lookup i w.store = some s) (_hrun : s.status = .running)
    (hprog : s.progress = []) :
    ∃ s', lookup i ((runEvents i evsC2 w acc).1).store = some s' ∧
      alookup "Market Analyst" s'.reports = some "Price is up." ∧
      s'.progress = ["Market Analyst"] ∧
      s'.currentAgent = getNextAgent "Market Analyst" ∧
      getNextAgent "Market Analyst" = "Social Analyst" := by
  have hs1 : lookup i (upd i (fun t => { t with currentAgent := "Market Analyst" }) w.store) = some { s with currentAgent := "Market Analyst" } := by
    rw [lookup_upd_self (f := fun t => { t with currentAgent := "Market Analyst" }) (fun y _ => rfl), hs]
    rfl
  have hs2 : lookup i (upd i (fun t => { t with reports := setReport t.reports "Market Analyst" ("" ++ "Price ") }) (upd i (fun t => { t with currentAgent := "Market Analyst" }) w.store)) = some { s with currentAgent := "Market Analyst", reports := setReport s.reports "Market Analyst" ("" ++ "Price ") } := by
    rw [lookup_upd_self (f := fun t => { t with reports := setReport t.reports "Market Analyst" ("" ++ "Price ") }) (fun y _ => rfl), hs1]
    rfl
  have hs3 : lookup i (upd i (fun t => { t with reports := setReport t.reports "Market Analyst" ("" ++ "Price " ++ "is up.") }) (upd i (fun t => { t with reports := setReport t.reports "Market Analyst" ("" ++ "Price ") }) (upd i (fun t => { t with currentAgent := "Market Analyst" }) w.store))) = some { s with currentAgent := "Market Analyst", reports := setReport (setReport s.reports "Market Analyst" ("" ++ "Price ")) "Market Analyst" ("" ++ "Price " ++ "is up.") } := by
    rw [lookup_upd_self (f := fun t => { t with reports := setReport t.reports "Market Analyst" ("" ++ "Price " ++ "is up.") }) (fun y _ => rfl), hs2]
    rfl
  have hs4 : lookup i (upd i (fun t => { t with reports := setReport t.reports "Market Analyst" "Price is up.", progress := t.progress ++ ["Market Analyst"], currentAgent := getNextAgent "Market Analyst" }) (upd i (fun t => { t with reports := setReport t.reports "Market Analyst" ("" ++ "Price " ++ "is up.") }) (upd i (fun t => { t with reports := setReport t.reports "Market Analyst" ("" ++ "Price ") }) (upd i (fun t => { t with currentAgent := "Market Analyst" }) w.store)))) = some { s with reports := setReport (setReport (setReport s.reports "Market Analyst" ("" ++ "Price ")) "Market Analyst" ("" ++ "Price " ++ "is up.")) "Market Analyst" "Price is up.", progress := s.progress ++ ["Market Analyst"], currentAgent := getNextAgent "Market Analyst" } := by
    rw [lookup_upd_self (f := fun t => { t with reports := setReport t.reports "Market Analyst" "Price is up.", progress := t.progress ++ ["Market Analyst"], currentAgent := getNextAgent "Market Analyst" }) (fun y _ => rfl), hs3]
    rfl
  refine ⟨{ s with reports := setReport (setReport (setReport s.reports "Market Analyst" ("" ++ "Price ")) "Market Analyst" ("" ++ "Price " ++ "is up.")) "Market Analyst" "Price is up.", progress := s.progress ++ ["Market Analyst"], currentAgent := getNextAgent "Market Analyst" }, ?_, ?_, ?_, ?_, by decide⟩
  · show lookup i ((runEvents i evsC2 w acc).1).store = _
    rw [show evsC2 = ({ type := .node_start, agent := some "Market Analyst", content := none } : StreamChunk) :: ({ type := .token, agent := some "Market Analyst", content := some "Price " } : StreamChunk) :: ({ type := .token, agent := some "Market Analyst", content := some "is up." } : StreamChunk) :: ({ type := .node_end, agent := some "Market Analyst", content := some "Price is up." } : StreamChunk) :: [] from rfl]
    rw [runEvents_cons_continue (runStep_node_start hs (by decide))]
    rw [runEvents_cons_continue (runStep_token hs1 (by decide) (by decide))]
    rw [runEvents_cons_continue (runStep_token hs2 (by decide) (by decide))]
    rw [runEvents_cons_continue (runStep_node_end hs3 (by decide) (by decide))]
    rw [runEvents_nil]
    exact hs4
  · exact alookup_setReport_self _ "Market Analyst" "Price is up."
  · show s.progress ++ ["Market Analyst"] = ["Market Analyst"]
    rw [hprog]
    rfl
  · rfl

/-- Witness for C2 at the concrete world `W2`. -/
theorem C2_streaming_scenario_witness :
    ∃ s', lookup "x" ((runEvents "x" evsC2 W2 accInit).1).store = some s' ∧
      alookup "Market Analyst" s'.reports = some "Price is up." ∧
      s'.progress = ["Market Analyst"] ∧
      s'.currentAgent = getNextAgent "Market Analyst" ∧
      getNextAgent "Market Analyst" = "Social Analyst" :=
  C2_streaming_scenario W2 "x" (sampleSession "x" "alice" .running 5) accInit
    (by decide) rfl rfl

/-! ### Claim C8 -/

theorem getSession_some_lookup {store : List Session} {i uid : String}
    {adm : Bool} {s : Session}
    (h : getSession store i uid adm = some s) : lookup i store = some s := by
  unfold getSession at h
  cases hl : lookup i store with
  | none => rw [hl] at h; cases h
  | some t =>
    rw [hl] at h
    dsimp only at h
    by_cases ha : adm = true
    · rw [if_pos ha] at h
      exact h
    · rw [if_neg ha] at h
      by_cases hc : uid ≠ "" ∧ t.userId ≠ "" ∧ t.userId ≠ uid
      · rw [if_pos hc] at h
        cases h
      · rw [if_neg hc] at h
        exact h

/-- C8: the retry route rejects (with an invalid-transition error and an
unchanged world) any accessible session whose status is not `error`; on an
`error` session it resets `progress`, `reports`, `decision`, `errorMsg`
and `currentAgent`, stashes the default stage selection, and re-enters the
admission path: the record ends `running` (first stage current) when the
owner has no running session, `queued` otherwise. -/
theorem C8_retry_route (w : World) (i uid : String) (adm : Bool) (s : Session)
    (hn : NodupKeys w.store) (hget : getSession w.store i uid adm = some s) :
    (s.status ≠ .error → retryRoute w i uid adm = (.invalidTransition, w)) ∧
    (s.status = .error →
      retryRoute w i uid adm = (.ok, retrySession i none w) ∧
      (getUserRunningSession s.userId w.store = none →
        lookup i (retrySession i none w).store =
          some { s with status := .running, errorMsg := "", progress := [], reports := [], decision := "", currentAgent := AGENT_ORDER.headD "", selectedStages := some defaultAnalysts }) ∧
      (∀ r, getUserRunningSession s.userId w.store = some r →
        lookup i (retrySession i none w).store =
          some { s with status := .queued, errorMsg := "", progress := [], reports := [], decision := "", currentAgent := "", selectedStages := some defaultAnalysts })) := by
  have hlook : lookup i w.store = some s := getSession_some_lookup hget
  constructor
  · intro hne
    unfold retryRoute
    rw [hget]
    dsimp only
    rw [if_neg hne]
  · intro hErr
    have hroute : retryRoute w i uid adm = (.ok, retrySession i none w) := by
      unfold retryRoute
      rw [hget]
      dsimp only
      rw [if_pos hErr]
    have hlook1 : lookup i (upd i (fun t => { t with status := SessionStatus.pending, errorMsg := "", progress := [], reports := [], decision := "", currentAgent := "" }) w.store) = some { s with status := SessionStatus.pending, errorMsg := "", progress := [], reports := [], decision := "", currentAgent := "" } := by
      rw [lookup_upd_self (f := fun t => { t with status := SessionStatus.pending, errorMsg := "", progress := [], reports := [], decision := "", currentAgent := "" }) (fun y _ => rfl), hlook]
      rfl
    have hn1 : NodupKeys (upd i (fun t => { t with status := SessionStatus.pending, errorMsg := "", progress := [], reports := [], decision := "", currentAgent := "" }) w.store) :=
      nodupKeys_upd (fun y _ => rfl) hn
    have hlook2 : lookup i (upd i (fun t => { t with selectedStages := some defaultAnalysts }) (upd i (fun t => { t with status := SessionStatus.pending, errorMsg := "", progress := [], reports := [], decision := "", currentAgent := "" }) w.store)) = some { s with status := SessionStatus.pending, errorMsg := "", progress := [], reports := [], decision := "", currentAgent := "", selectedStages := some defaultAnalysts } := by
      rw [lookup_upd_self (f := fun t => { t with selectedStages := some defaultAnalysts }) (fun y _ => rfl), hlook1]
      rfl
    have hg1 : getUserRunningSession s.userId (upd i (fun t => { t with selectedStages := some defaultAnalysts }) (upd i (fun t => { t with status := SessionStatus.pending, errorMsg := "", progress := [], reports := [], decision := "", currentAgent := "" }) w.store)) = getUserRunningSession s.userId (upd i (fun t => { t with status := SessionStatus.pending, errorMsg := "", progress := [], reports := [], decision := "", currentAgent := "" }) w.store) := by
      refine gurs_upd_untouched ?_
      intro y hy hyi
      have hye := mem_id_eq hn1 hlook1 hy hyi
      subst hye
      constructor
      · intro hcon
        cases hcon.1
      · intro hcon
        cases hcon.1
    have hg2 : getUserRunningSession s.userId (upd i (fun t => { t with status := SessionStatus.pending, errorMsg := "", progress := [], reports := [], decision := "", currentAgent := "" }) w.store) = getUserRunningSession s.userId w.store := by
      refine gurs_upd_untouched ?_
      intro y hy hyi
      have hye := mem_id_eq hn hlook hy hyi
      subst hye
      constructor
      · intro hcon
        rw [hErr] at hcon
        cases hcon.1
      · intro hcon
        cases hcon.1
    have hretry : retrySession i none w = opStart i defaultAnalysts (save { w with store := upd i (fun t => { t with status := SessionStatus.pending, errorMsg := "", progress := [], reports := [], decision := "", currentAgent := "" }) w.store }) := by
      unfold retrySession
      rw [hlook]
      rfl
    refine ⟨hroute, ?_, ?_⟩
    · intro hnone
      rw [hretry]
      unfold opStart
      rw [show lookup i (save { w with store := upd i (fun t => { t with status := SessionStatus.pending, errorMsg := "", progress := [], reports := [], decision := "", currentAgent := "" }) w.store }).store = some { s with status := SessionStatus.pending, errorMsg := "", progress := [], reports := [], decision := "", currentAgent := "" } from hlook1]
      dsimp only
      rw [show getUserRunningSession s.userId (upd i (fun t => { t with selectedStages := some defaultAnalysts }) (save { w with store := upd i (fun t => { t with status := SessionStatus.pending, errorMsg := "", progress := [], reports := [], decision := "", currentAgent := "" }) w.store }).store) = none from (hg1.trans hg2).trans hnone]
      unfold startSessionNow
      rw [show lookup i (upd i (fun t => { t with selectedStages := some defaultAnalysts }) (save { w with store := upd i (fun t => { t with status := SessionStatus.pending, errorMsg := "", progress := [], reports := [], decision := "", currentAgent := "" }) w.store }).store) = some { s with status := SessionStatus.pending, errorMsg := "", progress := [], reports := [], decision := "", currentAgent := "", selectedStages := some defaultAnalysts } from hlook2]
      dsimp only
      show lookup i (upd i (fun t => { t with status := SessionStatus.running, currentAgent := AGENT_ORDER.headD "" }) (upd i (fun t => { t with selectedStages := some defaultAnalysts }) (save { w with store := upd i (fun t => { t with status := SessionStatus.pending, errorMsg := "", progress := [], reports := [], decision := "", currentAgent := "" }) w.store }).store)) = _
      rw [lookup_upd_self (f := fun t => { t with status := SessionStatus.running, currentAgent := AGENT_ORDER.headD "" }) (fun y _ => rfl)]
      rw [show lookup i (upd i (fun t => { t with selectedStages := some defaultAnalysts }) (save { w with store := upd i (fun t => { t with status := SessionStatus.pending, errorMsg := "", progress := [], reports := [], decision := "", currentAgent := "" }) w.store }).store) = some { s with status := SessionStatus.pending, errorMsg := "", progress := [], reports := [], decision := "", currentAgent := "", selectedStages := some defaultAnalysts } from hlook2]
      rfl
    · intro r hsome
      rw [hretry]
      unfold opStart
      rw [show lookup i (save { w with store := upd i (fun t => { t with status := SessionStatus.pending, errorMsg := "", progress := [], reports := [], decision := "", currentAgent := "" }) w.store }).store = some { s with status := SessionStatus.pending, errorMsg := "", progress := [], reports := [], decision := "", currentAgent := "" } from hlook1]
      dsimp only
      rw [show getUserRunningSession s.userId (upd i (fun t => { t with selectedStages := some defaultAnalysts }) (save { w with store := upd i (fun t => { t with status := SessionStatus.pending, errorMsg := "", progress := [], reports := [], decision := "", currentAgent := "" }) w.store }).store) = some r from (hg1.trans hg2).trans hsome]
      dsimp only
      show lookup i (upd i (fun t => { t with status := SessionStatus.queued }) (upd i (fun t => { t with selectedStages := some defaultAnalysts }) (save { w with store := upd i (fun t => { t with status := SessionStatus.pending, errorMsg := "", progress := [], reports := [], decision := "", currentAgent := "" }) w.store }).store)) = _
      rw [lookup_upd_self (f := fun t => { t with status := SessionStatus.queued }) (fun y _ => rfl)]
      rw [show lookup i (upd i (fun t => { t with selectedStages := some defaultAnalysts }) (save { w with store := upd i (fun t => { t with status := SessionStatus.pending, errorMsg := "", progress := [], reports := [], decision := "", currentAgent := "" }) w.store }).store) = some { s with status := SessionStatus.pending, errorMsg := "", progress := [], reports := [], decision := "", currentAgent := "", selectedStages := some defaultAnalysts } from hlook2]
      rfl

/-- Witness for C8 at the concrete world `W8` (alice retries her failed
session; no running session exists, so it restarts immediately). -/
theorem C8_retry_route_witness :
    retryRoute W8 "e1" "alice" false = (.ok, retrySession "e1" none W8) ∧
    lookup "e1" (retrySession "e1" none W8).store =
      some { sErr with status := .running, errorMsg := "", progress := [], reports := [], decision := "", currentAgent := AGENT_ORDER.headD "", selectedStages := some defaultAnalysts } :=
  ⟨((C8_retry_route W8 "e1" "alice" false sErr (by decide) (by decide)).2 rfl).1,
   ((C8_retry_route W8 "e1" "alice" false sErr (by decide) (by decide)).2 rfl).2.1
     (by decide)⟩

/-! ### Claim C9 -/

theorem mem_insertDesc {s x : Session} {l : List Session} :
    x ∈ insertDesc s l ↔ x = s ∨ x ∈ l := by
  induction l with
  | nil => simp [insertDesc]
  | cons t rest ih =>
    unfold insertDesc
    by_cases h : t.createdAt ≤ s.createdAt
    · rw [if_pos h]
      simp only [List.mem_cons]
    · rw [if_neg h]
      simp only [List.mem_cons, ih]
      tauto

theorem pairwise_insertDesc {s : Session} {l : List Session}
    (h : l.Pairwise (fun a b => b.createdAt ≤ a.createdAt)) :
    (insertDesc s l).Pairwise (fun a b => b.createdAt ≤ a.createdAt) := by
  induction l with
  | nil => simp [insertDesc]
  | cons t rest ih =>
    rw [List.pairwise_cons] at h
    unfold insertDesc
    by_cases hc : t.createdAt ≤ s.createdAt
    · rw [if_pos hc]
      rw [List.pairwise_cons]
      constructor
      · intro b hb
        rcases List.mem_cons.mp hb with he | he
        · subst he; exact hc
        · exact le_trans (h.1 b he) hc
      · exact List.pairwise_cons.mpr h
    · rw [if_neg hc]
      rw [List.pairwise_cons]
      constructor
      · intro b hb
        rcases mem_insertDesc.mp hb with he | he
        · subst he; exact le_of_not_le hc
        · exact h.1 b he
      · exact ih h.2

theorem sortDesc_pairwise (l : List Session) :
    (sortDesc l).Pairwise (fun a b => b.createdAt ≤ a.createdAt) := by
  unfold sortDesc
  induction l with
  | nil => simp
  | cons t rest ih =>
    rw [List.foldr_cons]
    exact pairwise_insertDesc ih

theorem aget_aset (k kt : String) (v : Nat) (pm : List (String × Nat)) :
    aget k (aset kt v pm) = if kt = k then v else aget k pm := by
  induction pm with
  | nil =>
    unfold aset aget
    by_cases h : kt = k
    · rw [if_pos h, if_pos h]
    · rw [if_neg h, if_neg h]
      rfl
  | cons p rest ih =>
    obtain ⟨a, o⟩ := p
    unfold aset
    by_cases ha : a = kt
    · rw [if_pos ha]
      unfold aget
      by_cases h2 : kt = k
      · rw [if_pos h2, if_pos h2]
      · rw [if_neg h2, if_neg h2]
        unfold aget
        rw [if_neg (fun he => h2 (ha ▸ he))]
    · rw [if_neg ha]
      unfold aget
      by_cases h3 : a = k
      · rw [if_pos h3]
        have : ¬ kt = k := fun he => ha (h3 ▸ he.symm)
        rw [if_neg this]
        unfold aget
        rw [if_pos h3]
      · rw [if_neg h3]
        rw [ih]
        by_cases h2 : kt = k
        · rw [if_pos h2, if_pos h2]
        · rw [if_neg h2, if_neg h2]
          unfold aget
          rw [if_neg h3]

theorem qcountS_cons (k : String) (t : Session) (l : List Session) :
    qcountS k (t :: l) =
      qcountS k l + (if t.status = .queued ∧ userKey t = k then 1 else 0) := by
  unfold qcountS
  rw [List.countP_cons]
  simp only [decide_eq_true_eq]

theorem summarizeAux_length (l : List Session) (pm : List (String × Nat)) :
    (summarizeAux l pm).length = l.length := by
  induction l generalizing pm with
  | nil => rfl
  | cons t rest ih =>
    unfold summarizeAux
    by_cases h : t.status = .queued
    · rw [if_pos h]
      simp [ih]
    · rw [if_neg h]
      simp [ih]

theorem summarizeAux_get (l : List Session) (pm : List (String × Nat))
    (n : Nat) (s : Session) (h : l.get? n = some s) :
    (summarizeAux l pm).get? n =
      some (mkSummary s (if s.status = .queued then
        some (aget (userKey s) pm + qcountS (userKey s) (l.take n) + 1)
        else none)) := by
  induction l generalizing pm n with
  | nil => cases h
  | cons t rest ih =>
    cases n with
    | zero =>
      have hts : t = s := by simpa using h
      subst hts
      unfold summarizeAux
      by_cases hq : t.status = .queued
      · rw [if_pos hq, if_pos hq]
        rfl
      · rw [if_neg hq, if_neg hq]
        rfl
    | succ n =>
      have h2 : rest.get? n = some s := by simpa using h
      unfold summarizeAux
      by_cases hq : t.status = .queued
      · rw [if_pos hq]
        show (summarizeAux rest
          (aset (userKey t) (aget (userKey t) pm + 1) pm)).get? n = _
        rw [ih (aset (userKey t) (aget (userKey t) pm + 1) pm) n h2]
        by_cases hsq : s.status = .queued
        · rw [if_pos hsq, if_pos hsq]
          have htake : (t :: rest).take (n + 1) = t :: rest.take n := rfl
          rw [htake, qcountS_cons, aget_aset]
          by_cases hk : userKey t = userKey s
          · rw [if_pos hk, if_pos ⟨hq, hk⟩, hk]
            exact congrArg some (congrArg (mkSummary s) (congrArg some (by omega)))
          · rw [if_neg hk, if_neg (fun hcon => hk hcon.2)]
            exact congrArg some (congrArg (mkSummary s) (congrArg some (by omega)))
        · rw [if_neg hsq, if_neg hsq]
      · rw [if_neg hq]
        show (summarizeAux rest pm).get? n = _
        rw [ih pm n h2]
        by_cases hsq : s.status = .queued
        · rw [if_pos hsq, if_pos hsq]
          have htake : (t :: rest).take (n + 1) = t :: rest.take n := rfl
          rw [htake, qcountS_cons, if_neg (fun hcon => hq hcon.1)]
          exact congrArg some (congrArg (mkSummary s) (congrArg some (by omega)))
        · rw [if_neg hsq, if_neg hsq]

theorem filterFor_map_erase (uid : String) (adm : Bool) (l : List Session) :
    filterFor uid adm (l.map eraseReports) = (filterFor uid adm l).map eraseReports := by
  unfold filterFor
  by_cases ha : adm = true
  · rw [if_pos ha, if_pos ha]
  · rw [if_neg ha, if_neg ha]
    by_cases hu : uid ≠ ""
    · rw [if_pos hu, if_pos hu]
      rw [List.filter_map]
      congr 1
    · rw [if_neg hu, if_neg hu]
      rw [List.filter_map]
      congr 1

theorem insertDesc_map_erase (s : Session) (l : List Session) :
    insertDesc (eraseReports s) (l.map eraseReports) =
      (insertDesc s l).map eraseReports := by
  induction l with
  | nil => rfl
  | cons t rest ih =>
    rw [List.map_cons]
    show insertDesc (eraseReports s) (eraseReports t :: rest.map eraseReports) = _
    unfold insertDesc
    by_cases h : t.createdAt ≤ s.createdAt
    · rw [if_pos (show (eraseReports t).createdAt ≤ (eraseReports s).createdAt from h),
        if_pos h]
      rfl
    · rw [if_neg (show ¬ (eraseReports t).createdAt ≤ (eraseReports s).createdAt from h),
        if_neg h, ih]
      rfl

theorem sortDesc_map_erase (l : List Session) :
    sortDesc (l.map eraseReports) = (sortDesc l).map eraseReports := by
  induction l with
  | nil => rfl
  | cons t rest ih =>
    show sortDesc (eraseReports t :: rest.map eraseReports) = _
    unfold sortDesc
    rw [List.foldr_cons, List.foldr_cons]
    have ih2 : List.foldr insertDesc [] (rest.map eraseReports) =
        (List.foldr insertDesc [] rest).map eraseReports := ih
    rw [ih2, insertDesc_map_erase]

theorem summarizeAux_map_erase (l : List Session) (pm : List (String × Nat)) :
    summarizeAux (l.map eraseReports) pm = summarizeAux l pm := by
  induction l generalizing pm with
  | nil => rfl
  | cons t rest ih =>
    rw [List.map_cons]
    show summarizeAux (eraseReports t :: rest.map eraseReports) pm = _
    unfold summarizeAux
    by_cases h : t.status = .queued
    · rw [if_pos (show (eraseReports t).status = .queued from h), if_pos h]
      dsimp only
      rw [ih]
      rfl
    · rw [if_neg (show ¬ (eraseReports t).status = .queued from h), if_neg h, ih]
      rfl

theorem qcountS_take_le (k : String) (l : List Session) {a b : Nat} (h : a ≤ b) :
    qcountS k (l.take a) ≤ qcountS k (l.take b) := by
  have h2 : l.take a = (l.take b).take a := by
    rw [List.take_take, Nat.min_eq_left h]
  rw [h2]
  exact List.Sublist.countP_le _ (List.take_sublist _ _)

theorem summaries_char (uid : String) (adm : Bool) (l : List Session) {n : Nat}
    {x : SessionSummary}
    (hn : (getAllSessionSummaries uid adm l).get? n = some x) :
    ∃ sn, (getAllSessions uid adm l).get? n = some sn ∧
      x = mkSummary sn (if sn.status = .queued then
        some (aget (userKey sn) [] +
          qcountS (userKey sn) ((getAllSessions uid adm l).take n) + 1)
        else none) := by
  obtain ⟨hl, _⟩ := List.get?_eq_some.mp hn
  have heq : (getAllSessionSummaries uid adm l).length =
      (getAllSessions uid adm l).length :=
    summarizeAux_length _ _
  have hl2 : n < (getAllSessions uid adm l).length := by omega
  refine ⟨(getAllSessions uid adm l).get ⟨n, hl2⟩, List.get?_eq_get hl2, ?_⟩
  have hchar := summarizeAux_get (getAllSessions uid adm l) [] n _
    (List.get?_eq_get hl2)
  have h2 : some x = some (mkSummary ((getAllSessions uid adm l).get ⟨n, hl2⟩)
      (if ((getAllSessions uid adm l).get ⟨n, hl2⟩).status = .queued then
        some (aget (userKey ((getAllSessions uid adm l).get ⟨n, hl2⟩)) [] +
          qcountS (userKey ((getAllSessions uid adm l).get ⟨n, hl2⟩))
            ((getAllSessions uid adm l).take n) + 1)
        else none)) := hn.symm.trans hchar
  exact Option.some_inj.mp h2

theorem qcountSummary_cons (k : String) (t : SessionSummary)
    (l : List SessionSummary) :
    qcountSummary k (t :: l) =
      qcountSummary k l + (if t.status = .queued ∧ userKeyS t = k then 1 else 0) := by
  unfold qcountSummary
  rw [List.countP_cons]
  simp only [decide_eq_true_eq]

theorem summarizeAux_take_qcount (k : String) (l : List Session)
    (pm : List (String × Nat)) (n : Nat) :
    qcountSummary k ((summarizeAux l pm).take n) = qcountS k (l.take n) := by
  induction l generalizing pm n with
  | nil => simp [summarizeAux, qcountSummary, qcountS]
  | cons t rest ih =>
    cases n with
    | zero => rfl
    | succ n =>
      unfold summarizeAux
      by_cases h : t.status = .queued
      · rw [if_pos h]
        dsimp only
        rw [List.take_succ_cons, List.take_succ_cons, qcountSummary_cons,
          qcountS_cons, ih]
        rfl
      · rw [if_neg h]
        rw [List.take_succ_cons, List.take_succ_cons, qcountSummary_cons,
          qcountS_cons, ih]
        rfl

theorem summaries_position (uid : String) (adm : Bool) (l : List Session)
    {n : Nat} {x : SessionSummary}
    (hn : (getAllSessionSummaries uid adm l).get? n = some x)
    (hq : x.status = .queued) :
    x.queuePosition =
      some (qcountSummary (userKeyS x)
        ((getAllSessionSummaries uid adm l).take n) + 1) := by
  obtain ⟨sn, hsn, hx2⟩ := summaries_char uid adm l hn
  have hsnq : sn.status = .queued := by
    rw [hx2] at hq
    exact hq
  rw [hx2, if_pos hsnq]
  have hcnt : qcountSummary (userKey sn)
      ((getAllSessionSummaries uid adm l).take n) =
      qcountS (userKey sn) ((getAllSessions uid adm l).take n) :=
    summarizeAux_take_qcount (userKey sn) (getAllSessions uid adm l) [] n
  have hag : aget (userKey sn) ([] : List (String × Nat)) = 0 := rfl
  show some (aget (userKey sn) [] +
      qcountS (userKey sn) ((getAllSessions uid adm l).take n) + 1) =
    some (qcountSummary (userKey sn)
      ((getAllSessionSummaries uid adm l).take n) + 1)
  rw [hcnt]
  exact congrArg some (by omega)

theorem summaries_sorted (uid : String) (adm : Bool) (l : List Session)
    {i j : Nat} {a b : SessionSummary} (hij : i ≤ j)
    (ha : (getAllSessionSummaries uid adm l).get? i = some a)
    (hb : (getAllSessionSummaries uid adm l).get? j = some b) :
    b.createdAt ≤ a.createdAt := by
  rcases Nat.lt_or_ge i j with hlt | hge
  · obtain ⟨sa, hsa, ha2⟩ := summaries_char uid adm l ha
    obtain ⟨sb, hsb, hb2⟩ := summaries_char uid adm l hb
    have hpair := sortDesc_pairwise (filterFor uid adm l)
    rw [List.pairwise_iff_get] at hpair
    obtain ⟨hi2, hgi⟩ := List.get?_eq_some.mp hsa
    obtain ⟨hj2, hgj⟩ := List.get?_eq_some.mp hsb
    have hord : ((getAllSessions uid adm l).get ⟨j, hj2⟩).createdAt ≤
        ((getAllSessions uid adm l).get ⟨i, hi2⟩).createdAt :=
      hpair ⟨i, hi2⟩ ⟨j, hj2⟩ hlt
    rw [hgi, hgj] at hord
    rw [ha2, hb2]
    exact hord
  · have hij2 : i = j := Nat.le_antisymm hij hge
    subst hij2
    rw [ha] at hb
    cases hb
    exact Nat.le_refl _

/-- C9 counterexample: with two queued sessions of alice (createdAt 100 and
200), the summaries list positions the newest first with `queuePosition 1`
and gives the oldest `queuePosition 2` — refuting oldest-first (ascending
`createdAt`) assignment. -/
theorem C9_counterexample :
    getAllSessionSummaries "alice" false storeC9 =
      [mkSummary (sampleSession "q2" "alice" .queued 200) (some 1),
       mkSummary (sampleSession "q1" "alice" .queued 100) (some 2)] := by
  decide

/-- C9 (amended): summaries do not depend on the `reports` field; a summary
carries a (1-based) `queuePosition` exactly when its status is `queued`;
positions are assigned per user key in descending `createdAt` order: of two
queued summaries with the same key, the one with the smaller position has
the later (or equal) `createdAt`; each queued summary's position is exactly
one more than the number of queued summaries with the same key occurring
earlier in the list (the rank assignment starting at 1 per user key); and
consequently, for every user key owning a queued summary, the newest queued
summary of that key (the one with maximal `createdAt` among them) carries
`queuePosition 1`. -/
theorem C9_summaries_queue_order (uid : String) (adm : Bool) (l : List Session) :
    getAllSessionSummaries uid adm (l.map eraseReports) =
      getAllSessionSummaries uid adm l ∧
    (∀ x ∈ getAllSessionSummaries uid adm l,
      (x.status = .queued ↔ ∃ p, x.queuePosition = some p ∧ 1 ≤ p)) ∧
    (∀ m n x y px py,
      (getAllSessionSummaries uid adm l).get? m = some x →
      (getAllSessionSummaries uid adm l).get? n = some y →
      userKeyS x = userKeyS y →
      x.queuePosition = some px → y.queuePosition = some py →
      px < py → y.createdAt ≤ x.createdAt) ∧
    (∀ n x, (getAllSessionSummaries uid adm l).get? n = some x →
      x.status = .queued →
      x.queuePosition =
        some (qcountSummary (userKeyS x)
          ((getAllSessionSummaries uid adm l).take n) + 1)) ∧
    (∀ x ∈ getAllSessionSummaries uid adm l, x.status = .queued →
      ∃ y ∈ getAllSessionSummaries uid adm l, y.status = .queued ∧
        userKeyS y = userKeyS x ∧ y.queuePosition = some 1 ∧
        ∀ z ∈ getAllSessionSummaries uid adm l, z.status = .queued →
          userKeyS z = userKeyS x → z.createdAt ≤ y.createdAt) := by
  refine ⟨?_, ?_, ?_, ?_, ?_⟩
  · show summarizeAux (sortDesc (filterFor uid adm (l.map eraseReports))) [] =
      summarizeAux (sortDesc (filterFor uid adm l)) []
    rw [filterFor_map_erase, sortDesc_map_erase, summarizeAux_map_erase]
  · intro x hx
    rcases List.mem_iff_get?.mp hx with ⟨n, hn⟩
    obtain ⟨sn, hsn, hx2⟩ := summaries_char uid adm l hn
    constructor
    · intro hq
      have hsnq : sn.status = .queued := by
        rw [hx2] at hq
        exact hq
      refine ⟨aget (userKey sn) [] +
        qcountS (userKey sn) ((getAllSessions uid adm l).take n) + 1, ?_, ?_⟩
      · rw [hx2, if_pos hsnq]
        rfl
      · omega
    · rintro ⟨p, hp, _⟩
      by_cases hsnq : sn.status = .queued
      · rw [hx2]
        exact hsnq
      · rw [hx2, if_neg hsnq] at hp
        have hp2 : (none : Option Nat) = some p := hp
        cases hp2
  · intro m n x y px py hm hn hkey hpx hpy hlt
    obtain ⟨sm, hsm, hx2⟩ := summaries_char uid adm l hm
    obtain ⟨sn, hsn, hy2⟩ := summaries_char uid adm l hn
    by_cases hsmq : sm.status = .queued
    · by_cases hsnq : sn.status = .queued
      · rw [hx2, if_pos hsmq] at hpx
        rw [hy2, if_pos hsnq] at hpy
        have hpx2 : some (aget (userKey sm) [] +
            qcountS (userKey sm) ((getAllSessions uid adm l).take m) + 1) =
            some px := hpx
        have hpy2 : some (aget (userKey sn) [] +
            qcountS (userKey sn) ((getAllSessions uid adm l).take n) + 1) =
            some py := hpy
        have hepx := Option.some_inj.mp hpx2
        have hepy := Option.some_inj.mp hpy2
        have hk : userKey sm = userKey sn := by
          rw [hx2, hy2] at hkey
          exact hkey
        rw [← hk] at hepy
        have hag : aget (userKey sm) ([] : List (String × Nat)) = 0 := rfl
        have hmn : m < n := by
          by_contra hcon
          push_neg at hcon
          have hmono := qcountS_take_le (userKey sm) (getAllSessions uid adm l) hcon
          omega
        have hpair := sortDesc_pairwise (filterFor uid adm l)
        rw [List.pairwise_iff_get] at hpair
        obtain ⟨hm2, hgm⟩ := List.get?_eq_some.mp hsm
        obtain ⟨hn2, hgn⟩ := List.get?_eq_some.mp hsn
        have hord : ((getAllSessions uid adm l).get ⟨n, hn2⟩).createdAt ≤
            ((getAllSessions uid adm l).get ⟨m, hm2⟩).createdAt :=
          hpair ⟨m, hm2⟩ ⟨n, hn2⟩ hmn
        rw [hgm, hgn] at hord
        rw [hx2, hy2]
        exact hord
      · rw [hy2, if_neg hsnq] at hpy
        have hp2 : (none : Option Nat) = some py := hpy
        cases hp2
    · rw [hx2, if_neg hsmq] at hpx
      have hp2 : (none : Option Nat) = some px := hpx
      cases hp2
  · intro n x hn hq
    exact summaries_position uid adm l hn hq
  · intro x hx hxq
    rcases List.mem_iff_get?.mp hx with ⟨n0, hn0⟩
    have hex : ∃ m, ((getAllSessionSummaries uid adm l).get? m).any
        (fun z => decide (z.status = .queued ∧ userKeyS z = userKeyS x)) = true := by
      refine ⟨n0, ?_⟩
      rw [hn0]
      show decide (x.status = .queued ∧ userKeyS x = userKeyS x) = true
      exact decide_eq_true ⟨hxq, rfl⟩
    have hPi := Nat.find_spec hex
    cases hyi : (getAllSessionSummaries uid adm l).get? (Nat.find hex) with
    | none =>
      rw [hyi] at hPi
      exact Bool.noConfusion (show false = true from hPi)
    | some y =>
      rw [hyi] at hPi
      have hy : y.status = .queued ∧ userKeyS y = userKeyS x :=
        of_decide_eq_true (show decide (y.status = .queued ∧
          userKeyS y = userKeyS x) = true from hPi)
      refine ⟨y, List.mem_iff_get?.mpr ⟨_, hyi⟩, hy.1, hy.2, ?_, ?_⟩
      · have hpos := summaries_position uid adm l hyi hy.1
        have hzero : qcountSummary (userKeyS y)
            ((getAllSessionSummaries uid adm l).take (Nat.find hex)) = 0 := by
          unfold qcountSummary
          rw [List.countP_eq_zero]
          intro a ha2 hcon
          rcases List.mem_iff_get?.mp ha2 with ⟨jj, hjj⟩
          obtain ⟨hjl, _⟩ := List.get?_eq_some.mp hjj
          have hjlt : jj < Nat.find hex := by
            have hlen := List.length_take_le (Nat.find hex)
              (getAllSessionSummaries uid adm l)
            omega
          have hga : (getAllSessionSummaries uid adm l).get? jj = some a := by
            rw [List.get?_eq_getElem?] at hjj
            rw [List.get?_eq_getElem?, ← List.getElem?_take_of_lt hjlt]
            exact hjj
          apply Nat.find_min hex hjlt
          rw [hga]
          have hca := of_decide_eq_true hcon
          show decide (a.status = .queued ∧ userKeyS a = userKeyS x) = true
          exact decide_eq_true ⟨hca.1, hca.2.trans hy.2⟩
        rw [hpos, hzero]
      · intro z hz hzq hzk
        rcases List.mem_iff_get?.mp hz with ⟨j, hj⟩
        have hij : Nat.find hex ≤ j := by
          by_contra hcon
          push_neg at hcon
          apply Nat.find_min hex hcon
          rw [hj]
          show decide (z.status = .queued ∧ userKeyS z = userKeyS x) = true
          exact decide_eq_true ⟨hzq, hzk⟩
        exact summaries_sorted uid adm l hij hyi hj

/-- Witness for C9 at the concrete store `storeC9`: the summary with the
larger queue position (the oldest record) has the smaller `createdAt`, and
the newest queued record (index 0) gets rank `queuePosition 1` by the
per-key rank formula. -/
theorem C9_summaries_queue_order_witness :
    ((mkSummary (sampleSession "q1" "alice" .queued 100) (some 2)).createdAt ≤
      (mkSummary (sampleSession "q2" "alice" .queued 200) (some 1)).createdAt) ∧
    (mkSummary (sampleSession "q2" "alice" .queued 200) (some 1)).queuePosition =
      some 1 :=
  ⟨(C9_summaries_queue_order "alice" false storeC9).2.2.1 0 1
    (mkSummary (sampleSession "q2" "alice" .queued 200) (some 1))
    (mkSummary (sampleSession "q1" "alice" .queued 100) (some 2))
    1 2 (by decide) (by decide) (by decide) (by decide) (by decide) (by decide),
   ((C9_summaries_queue_order "alice" false storeC9).2.2.2.1 0
      (mkSummary (sampleSession "q2" "alice" .queued 200) (some 1))
      (by decide) (by decide)).trans (by decide)⟩

/-- Witness for C3 (amended) at a concrete store and requester. -/
theorem C3_getSession_access_witness :
    getSession [sampleSession "a" "alice" .completed 3] "a" "bob" false =
      some (sampleSession "a" "alice" .completed 3) ↔
      (lookup "a" [sampleSession "a" "alice" .completed 3] =
        some (sampleSession "a" "alice" .completed 3) ∧
       (false = true ∨ "bob" = "" ∨
        (sampleSession "a" "alice" .completed 3).userId = "" ∨
        (sampleSession "a" "alice" .completed 3).userId = "bob")) :=
  C3_getSession_access [sampleSession "a" "alice" .completed 3] "a" "bob" false
    (sampleSession "a" "alice" .completed 3)
